import Mathlib

/-! Shallow embedding of the `Faraday_3D` simulation core (`src/faraday3d.py`):
the physics functions `calcular_campo_magnetico`, `calcular_flujo_magnetico`
and `calcular_emf_inducida`, the per-frame step `animacion`, and the frame
count computed by `ejecutar_simulacion`.  Python floats are modelled as real
numbers; Python's `%` on integers agrees with `Int.emod` for positive
moduli, so frame indices are `ℤ` with `%` meaning `Int.emod`.
-/

namespace Faraday3D

/-- Constructor parameters of `Faraday_3D.__init__` (no validation is
performed there): number of turns, loop radius (m), peak field (T),
oscillation frequency (Hz). -/
structure Config where
  num_vueltas : ℕ
  radio_espira : ℝ
  B_max : ℝ
  frecuencia : ℝ

/-- Embeds `self.area_espira = np.pi * self.radio_espira**2`. -/
noncomputable def area_espira (c : Config) : ℝ := Real.pi * c.radio_espira ^ 2

/-- Embeds `self.omega = 2 * np.pi * self.frecuencia`. -/
noncomputable def omega (c : Config) : ℝ := 2 * Real.pi * c.frecuencia

/-- The validity precondition used throughout the spec: all four
constructor parameters strictly positive. -/
def Valid (c : Config) : Prop :=
  0 < c.num_vueltas ∧ 0 < c.radio_espira ∧ 0 < c.B_max ∧ 0 < c.frecuencia

/-- Embeds `calcular_campo_magnetico(t) = B_max * cos(omega * t)`. -/
noncomputable def calcular_campo_magnetico (c : Config) (t : ℝ) : ℝ :=
  c.B_max * Real.cos (omega c * t)

/-- Embeds `calcular_flujo_magnetico(B) = B * area_espira`. -/
noncomputable def calcular_flujo_magnetico (c : Config) (B : ℝ) : ℝ :=
  B * area_espira c

/-- Embeds `calcular_emf_inducida(t)`:
`dB_dt = -B_max*omega*sin(omega*t); dPhi_dt = area*dB_dt;
emf = -num_vueltas*dPhi_dt`. -/
noncomputable def calcular_emf_inducida (c : Config) (t : ℝ) : ℝ :=
  let dB_dt := -c.B_max * omega c * Real.sin (omega c * t)
  let dPhi_dt := area_espira c * dB_dt
  let emf := -(c.num_vueltas : ℝ) * dPhi_dt
  emf

/-- The field intensity `intensidad = abs(B) / self.B_max` computed in
`dibujar_campo_magnetico_3d`. -/
noncomputable def intensidad_campo (c : Config) (B : ℝ) : ℝ := |B| / c.B_max

/-- The denominator `self.num_vueltas * self.B_max * self.omega *
self.area_espira` of the EMF normalisation in `animacion`. -/
noncomputable def emf_max (c : Config) : ℝ :=
  (c.num_vueltas : ℝ) * c.B_max * omega c * area_espira c

/-- Embeds `intensidad_emf = abs(emf) / (N * B_max * omega * area_espira)`
(`animacion`, the colour-intensity normalisation). -/
noncomputable def intensidad_emf (c : Config) (emf : ℝ) : ℝ := |emf| / emf_max c

/-- The mutable per-instance state touched by `animacion`: the four history
arrays (`self.tiempo`, `self.campo_magnetico`, `self.flujo_magnetico`,
`self.emf_inducida`, appended at the end like Python `list.append`) and the
axes/camera settings it writes. -/
structure SimState where
  tiempo : List ℝ
  campo_magnetico : List ℝ
  flujo_magnetico : List ℝ
  emf_inducida : List ℝ
  view_azim : ℝ
  ax2_xlim : ℝ × ℝ
  ax2_ylim : ℝ × ℝ
  ax3_xlim : ℝ × ℝ
  ax3_ylim : ℝ × ℝ

/-- The observable decisions and values of one `animacion` call: the fresh
physics sample, the four frame-modulo cadence decisions, and the EMF
colour-intensity normalisation computed every frame. -/
structure FrameUpdate where
  t : ℝ
  B : ℝ
  Phi : ℝ
  emf : ℝ
  redrawFieldVectors : Bool
  rotateCamera : Bool
  rescaleAxes : Bool
  refreshText : Bool
  intensidad : ℝ

/-- Python `min` of a non-empty list; the `[]` case is unreachable behind the
`len(set(...)) > 1` guards in `animacion`. -/
noncomputable def pymin : List ℝ → ℝ
  | [] => 0
  | x :: xs => xs.foldl min x

/-- Python `max` of a non-empty list. -/
noncomputable def pymax : List ℝ → ℝ
  | [] => 0
  | x :: xs => xs.foldl max x

/-- Python `len(set(l)) > 1`: the list holds more than one distinct value. -/
def dosDistintos (l : List ℝ) : Prop := ∃ a ∈ l, ∃ b ∈ l, a ≠ b

open Classical in
/-- The y-limit update of a time-series axis inside the rescale block of
`animacion`: `if len(set(serie)) > 1: lo, hi = min(serie), max(serie);
if abs(hi - lo) > 0.001: ax.set_ylim(lo * 1.1, hi * 1.1)`, applied only when
the rescale cadence fired. -/
noncomputable def nuevo_ylim (old : ℝ × ℝ) (rescale : Bool) (serie : List ℝ) :
    ℝ × ℝ :=
  if rescale = true ∧ dosDistintos serie ∧ 0.001 < |pymax serie - pymin serie|
  then (pymin serie * 1.1, pymax serie * 1.1)
  else old

open Classical in
/-- One call of `Faraday_3D.animacion(frame)`: computes `t = frame * 0.05`,
derives the physics sample, appends it to the four history arrays
unconditionally, then applies the frame-modulo-throttled rendering updates
(field redraw every 2 frames, camera rotation every 5, axis rescale every 10
once the history holds more than 10 entries, text refresh every 3).  Returns
the new state and this frame's decisions. -/
noncomputable def animacion (c : Config) (s : SimState) (frame : ℤ) :
    SimState × FrameUpdate :=
  let t : ℝ := (frame : ℝ) * 0.05
  let B := calcular_campo_magnetico c t
  let Phi := calcular_flujo_magnetico c B
  let emf := calcular_emf_inducida c t
  let tiempo' := s.tiempo ++ [t]
  let campo' := s.campo_magnetico ++ [B]
  let flujo' := s.flujo_magnetico ++ [Phi]
  let emfs' := s.emf_inducida ++ [emf]
  let redraw := frame % 2 == 0
  let inten := intensidad_emf c emf
  let rotate := frame % 5 == 0
  let azim := if rotate then 45 + 15 * Real.sin (t * 0.3) else s.view_azim
  let rescale := decide (10 < tiempo'.length) && (frame % 10 == 0)
  let tiempo_max := pymax tiempo'
  let ax2x := if rescale = true ∧ 0 < tiempo_max then ((0 : ℝ), tiempo_max)
              else s.ax2_xlim
  let ax2y := nuevo_ylim s.ax2_ylim rescale campo'
  let ax3x := if rescale = true then ((0 : ℝ), tiempo_max) else s.ax3_xlim
  let ax3y := if emfs' = [] then s.ax3_ylim
              else nuevo_ylim s.ax3_ylim rescale emfs'
  (⟨tiempo', campo', flujo', emfs', azim, ax2x, ax2y, ax3x, ax3y⟩,
   ⟨t, B, Phi, emf, redraw, rotate, rescale, frame % 3 == 0, inten⟩)

/-- A fresh `Faraday_3D` instance: empty history arrays, camera azimuth 45
(`view_init(elev=20, azim=45)` in `setup_plots`), matplotlib's default
`(0, 1)` limits on the two time-series axes. -/
def estadoInicial : SimState :=
  ⟨[], [], [], [], 45, (0, 1), (0, 1), (0, 1), (0, 1)⟩

/-- Driving `animacion` over a list of frame indices in order, as
`FuncAnimation` does with frames `0, 1, 2, ...`. -/
noncomputable def runSim (c : Config) : List ℤ → SimState → SimState
  | [], s => s
  | f :: fs, s => runSim c fs (animacion c s f).1

/-- Python `int()` on a real value: truncation toward zero. -/
noncomputable def int_trunc (x : ℝ) : ℤ := if 0 ≤ x then ⌊x⌋ else ⌈x⌉

/-- The frame count of `ejecutar_simulacion`:
`frames = int(duracion / 0.05)`. -/
noncomputable def totalFrames (duracion : ℝ) : ℤ := int_trunc (duracion / 0.05)

/-- The source's "Configuración básica": `N=1, r=1.0m, B=2.0T, f=0.5Hz`. -/
noncomputable def config_basica : Config := ⟨1, 1, 2, 0.5⟩

/-! Unfolding lemmas for the step function. -/

lemma animacion_tiempo (c : Config) (s : SimState) (f : ℤ) :
    (animacion c s f).1.tiempo = s.tiempo ++ [(f : ℝ) * 0.05] := rfl

lemma animacion_campo (c : Config) (s : SimState) (f : ℤ) :
    (animacion c s f).1.campo_magnetico
      = s.campo_magnetico ++ [calcular_campo_magnetico c ((f : ℝ) * 0.05)] := rfl

lemma animacion_flujo (c : Config) (s : SimState) (f : ℤ) :
    (animacion c s f).1.flujo_magnetico
      = s.flujo_magnetico
          ++ [calcular_flujo_magnetico c
                (calcular_campo_magnetico c ((f : ℝ) * 0.05))] := rfl

lemma animacion_emf (c : Config) (s : SimState) (f : ℤ) :
    (animacion c s f).1.emf_inducida
      = s.emf_inducida ++ [calcular_emf_inducida c ((f : ℝ) * 0.05)] := rfl

lemma animacion_redraw (c : Config) (s : SimState) (f : ℤ) :
    (animacion c s f).2.redrawFieldVectors = (f % 2 == 0) := rfl

lemma animacion_rotate (c : Config) (s : SimState) (f : ℤ) :
    (animacion c s f).2.rotateCamera = (f % 5 == 0) := rfl

lemma animacion_rescale (c : Config) (s : SimState) (f : ℤ) :
    (animacion c s f).2.rescaleAxes
      = (decide (10 < (s.tiempo ++ [(f : ℝ) * 0.05]).length)
          && (f % 10 == 0)) := rfl

lemma animacion_refresh (c : Config) (s : SimState) (f : ℤ) :
    (animacion c s f).2.refreshText = (f % 3 == 0) := rfl

lemma animacion_azim (c : Config) (s : SimState) (f : ℤ) :
    (animacion c s f).1.view_azim
      = if (f % 5 == 0) then 45 + 15 * Real.sin (((f : ℝ) * 0.05) * 0.3)
        else s.view_azim := rfl

lemma animacion_ax2_ylim (c : Config) (s : SimState) (f : ℤ) :
    (animacion c s f).1.ax2_ylim
      = nuevo_ylim s.ax2_ylim
          (decide (10 < (s.tiempo ++ [(f : ℝ) * 0.05]).length)
            && (f % 10 == 0))
          (s.campo_magnetico
            ++ [calcular_campo_magnetico c ((f : ℝ) * 0.05)]) := rfl

lemma animacion_sample (c : Config) (s : SimState) (f : ℤ) :
    (animacion c s f).2.t = (f : ℝ) * 0.05 ∧
    (animacion c s f).2.B = calcular_campo_magnetico c ((f : ℝ) * 0.05) ∧
    (animacion c s f).2.Phi
      = calcular_flujo_magnetico c
          (calcular_campo_magnetico c ((f : ℝ) * 0.05)) ∧
    (animacion c s f).2.emf = calcular_emf_inducida c ((f : ℝ) * 0.05) :=
  ⟨rfl, rfl, rfl, rfl⟩

lemma animacion_intensidad (c : Config) (s : SimState) (f : ℤ) :
    (animacion c s f).2.intensidad
      = intensidad_emf c (calcular_emf_inducida c ((f : ℝ) * 0.05)) := rfl

/-! Algebraic helper lemmas. -/

/-- The EMF function in closed form: the double negation in the source
collapses to `N * A * B_max * omega * sin(omega * t)`. -/
lemma calcular_emf_closed (c : Config) (t : ℝ) :
    calcular_emf_inducida c t
      = (c.num_vueltas : ℝ) * area_espira c * c.B_max * omega c
          * Real.sin (omega c * t) := by
  unfold calcular_emf_inducida
  ring

lemma area_espira_pos {c : Config} (h : Valid c) : 0 < area_espira c := by
  have hr := h.2.1
  unfold area_espira
  positivity

lemma omega_pos {c : Config} (h : Valid c) : 0 < omega c := by
  have hf := h.2.2.2
  unfold omega
  positivity

lemma num_vueltas_pos {c : Config} (h : Valid c) : 0 < (c.num_vueltas : ℝ) := by
  exact_mod_cast h.1

lemma emf_max_pos {c : Config} (h : Valid c) : 0 < emf_max c := by
  have h1 := num_vueltas_pos h
  have h2 := h.2.2.1
  have h3 := omega_pos h
  have h4 := area_espira_pos h
  unfold emf_max
  positivity

/-- `pymin` of a non-empty list is an element of the list. -/
lemma pymin_mem : ∀ {l : List ℝ}, l ≠ [] → pymin l ∈ l := by
  have key : ∀ (l : List ℝ) (a : ℝ), l.foldl min a = a ∨ l.foldl min a ∈ l := by
    intro l
    induction l with
    | nil => intro a; exact Or.inl rfl
    | cons x xs ih =>
      intro a
      have hfold : List.foldl min a (x :: xs) = List.foldl min (min a x) xs :=
        rfl
      rcases ih (min a x) with h | h
      · rcases min_choice a x with hm | hm
        · exact Or.inl (by rw [hfold, h, hm])
        · exact Or.inr (by rw [hfold, h, hm]; exact List.mem_cons_self x xs)
      · exact Or.inr (by rw [hfold]; exact List.mem_cons_of_mem x h)
  intro l hl
  match l, hl with
  | x :: xs, _ =>
    have hdef : pymin (x :: xs) = xs.foldl min x := rfl
    rcases key xs x with h | h
    · rw [hdef, h]; exact List.mem_cons_self x xs
    · rw [hdef]; exact List.mem_cons_of_mem x h

/-- `pymax` of a non-empty list is an element of the list. -/
lemma pymax_mem : ∀ {l : List ℝ}, l ≠ [] → pymax l ∈ l := by
  have key : ∀ (l : List ℝ) (a : ℝ), l.foldl max a = a ∨ l.foldl max a ∈ l := by
    intro l
    induction l with
    | nil => intro a; exact Or.inl rfl
    | cons x xs ih =>
      intro a
      have hfold : List.foldl max a (x :: xs) = List.foldl max (max a x) xs :=
        rfl
      rcases ih (max a x) with h | h
      · rcases max_choice a x with hm | hm
        · exact Or.inl (by rw [hfold, h, hm])
        · exact Or.inr (by rw [hfold, h, hm]; exact List.mem_cons_self x xs)
      · exact Or.inr (by rw [hfold]; exact List.mem_cons_of_mem x h)
  intro l hl
  match l, hl with
  | x :: xs, _ =>
    have hdef : pymax (x :: xs) = xs.foldl max x := rfl
    rcases key xs x with h | h
    · rw [hdef, h]; exact List.mem_cons_self x xs
    · rw [hdef]; exact List.mem_cons_of_mem x h

/-- The degenerate-range guard of `nuevo_ylim`: when all values of a
non-empty series lie within `1e-4` of each other, the y-limits are kept. -/
lemma nuevo_ylim_flat {old : ℝ × ℝ} {b : Bool} {l : List ℝ}
    (hne : l ≠ []) (hflat : ∀ x ∈ l, ∀ y ∈ l, |x - y| ≤ 0.0001) :
    nuevo_ylim old b l = old := by
  unfold nuevo_ylim
  rw [if_neg]
  rintro ⟨-, -, hspread⟩
  have h1 := pymax_mem hne
  have h2 := pymin_mem hne
  have h3 := hflat _ h1 _ h2
  linarith [h3, hspread]

/-- The EMF sample rewritten against the normalisation denominator:
`calcular_emf_inducida c t = emf_max c * sin (omega c * t)`. -/
lemma calcular_emf_emf_max (c : Config) (t : ℝ) :
    calcular_emf_inducida c t = emf_max c * Real.sin (omega c * t) := by
  rw [calcular_emf_closed]
  unfold emf_max
  ring

lemma abs_sin_eq_one_iff_cos_eq_zero (x : ℝ) :
    |Real.sin x| = 1 ↔ Real.cos x = 0 := by
  have hsq := Real.sin_sq_add_cos_sq x
  constructor
  · intro h
    have h2 : Real.sin x ^ 2 = 1 := by
      rw [← sq_abs, h]; norm_num
    have h3 : Real.cos x ^ 2 = 0 := by linarith
    exact pow_eq_zero_iff (by norm_num) |>.mp h3
  · intro h
    rw [h] at hsq
    have h2 : Real.sin x ^ 2 = 1 := by nlinarith
    have h3 : (|Real.sin x| - 1) * (|Real.sin x| + 1) = 0 := by
      have h4 : |Real.sin x| ^ 2 = 1 := by rw [sq_abs]; exact h2
      linear_combination h4
    rcases mul_eq_zero.mp h3 with h5 | h5
    · linarith
    · linarith [abs_nonneg (Real.sin x)]

lemma abs_cos_eq_one_iff_sin_eq_zero (x : ℝ) :
    |Real.cos x| = 1 ↔ Real.sin x = 0 := by
  have hsq := Real.sin_sq_add_cos_sq x
  constructor
  · intro h
    have h2 : Real.cos x ^ 2 = 1 := by
      rw [← sq_abs, h]; norm_num
    have h3 : Real.sin x ^ 2 = 0 := by linarith
    exact pow_eq_zero_iff (by norm_num) |>.mp h3
  · intro h
    rw [h] at hsq
    have h2 : Real.cos x ^ 2 = 1 := by nlinarith
    have h3 : (|Real.cos x| - 1) * (|Real.cos x| + 1) = 0 := by
      have h4 : |Real.cos x| ^ 2 = 1 := by rw [sq_abs]; exact h2
      linear_combination h4
    rcases mul_eq_zero.mp h3 with h5 | h5
    · linarith
    · linarith [abs_nonneg (Real.cos x)]

lemma valid_basica : Valid config_basica :=
  ⟨by norm_num [config_basica], by norm_num [config_basica],
   by norm_num [config_basica], by norm_num [config_basica]⟩

/-! Claim theorems. -/

/-- C1: for every valid configuration and every frame ≥ 0 with
`t = frame * 0.05`, the physics sample of a step satisfies the exact
closed-form relations `B = B_max * cos(omega * t)`, `Phi = B * A` with
`A = pi * r^2`, and `epsilon = N * A * B_max * omega * sin(omega * t)` (the
analytic derivative relation). -/
theorem paso_formas_cerradas (c : Config) (s : SimState) (frame : ℤ)
    (hval : Valid c) (hf : 0 ≤ frame) :
    (animacion c s frame).2.B
        = c.B_max * Real.cos (omega c * ((frame : ℝ) * 0.05)) ∧
    (animacion c s frame).2.Phi = (animacion c s frame).2.B * area_espira c ∧
    (animacion c s frame).2.emf
        = (c.num_vueltas : ℝ) * area_espira c * c.B_max * omega c
            * Real.sin (omega c * ((frame : ℝ) * 0.05)) :=
  ⟨rfl, rfl, calcular_emf_closed c ((frame : ℝ) * 0.05)⟩

/-- Witness for C1 at the source's basic configuration and frame 0. -/
theorem paso_formas_cerradas_witness :
    Valid config_basica ∧
    ((animacion config_basica estadoInicial 0).2.B
        = config_basica.B_max
            * Real.cos (omega config_basica * (((0 : ℤ) : ℝ) * 0.05)) ∧
     (animacion config_basica estadoInicial 0).2.Phi
        = (animacion config_basica estadoInicial 0).2.B
            * area_espira config_basica ∧
     (animacion config_basica estadoInicial 0).2.emf
        = (config_basica.num_vueltas : ℝ) * area_espira config_basica
            * config_basica.B_max * omega config_basica
            * Real.sin (omega config_basica * (((0 : ℤ) : ℝ) * 0.05))) :=
  ⟨valid_basica,
   paso_formas_cerradas config_basica estadoInicial 0 valid_basica le_rfl⟩

/-- C2: for every frame ≥ 0 the four render-cadence decisions of a step are
exactly the stated frame-index predicates, for every configuration and every
prior state (hence independent of the physical values): field vectors are
redrawn iff `frame % 2 == 0`, the camera rotates iff `frame % 5 == 0`, the
axes are rescaled iff `frame % 10 == 0` and the history (as of the check,
after this frame's sample was appended) has length > 10, and the text
overlay refreshes iff `frame % 3 == 0`. -/
theorem cadencias_de_render (c : Config) (s : SimState) (frame : ℤ)
    (hf : 0 ≤ frame) :
    ((animacion c s frame).2.redrawFieldVectors = true ↔ frame % 2 = 0) ∧
    ((animacion c s frame).2.rotateCamera = true ↔ frame % 5 = 0) ∧
    ((animacion c s frame).2.rescaleAxes = true ↔
        (frame % 10 = 0 ∧ 10 < ((animacion c s frame).1.tiempo).length)) ∧
    ((animacion c s frame).2.refreshText = true ↔ frame % 3 = 0) := by
  refine ⟨?_, ?_, ?_, ?_⟩
  · rw [animacion_redraw]; exact beq_iff_eq
  · rw [animacion_rotate]; exact beq_iff_eq
  · rw [animacion_rescale, animacion_tiempo]
    simp only [Bool.and_eq_true, decide_eq_true_eq, beq_iff_eq]
    exact and_comm
  · rw [animacion_refresh]; exact beq_iff_eq

/-- Witness for C2 at frame 0 over the basic configuration and a fresh
state. -/
theorem cadencias_de_render_witness :
    ((animacion config_basica estadoInicial 0).2.redrawFieldVectors = true ↔
        (0 : ℤ) % 2 = 0) ∧
    ((animacion config_basica estadoInicial 0).2.rotateCamera = true ↔
        (0 : ℤ) % 5 = 0) ∧
    ((animacion config_basica estadoInicial 0).2.rescaleAxes = true ↔
        ((0 : ℤ) % 10 = 0 ∧
          10 < ((animacion config_basica estadoInicial 0).1.tiempo).length)) ∧
    ((animacion config_basica estadoInicial 0).2.refreshText = true ↔
        (0 : ℤ) % 3 = 0) :=
  cadencias_de_render config_basica estadoInicial 0 le_rfl

/-- Running `animacion` over any frame list extends each history array by
one entry per call, in call order. -/
lemma runSim_historia (c : Config) (fs : List ℤ) (s : SimState) :
    (runSim c fs s).tiempo
      = s.tiempo ++ fs.map (fun f : ℤ => (f : ℝ) * 0.05) ∧
    (runSim c fs s).campo_magnetico
      = s.campo_magnetico
          ++ fs.map (fun f : ℤ => calcular_campo_magnetico c ((f : ℝ) * 0.05)) ∧
    (runSim c fs s).flujo_magnetico
      = s.flujo_magnetico
          ++ fs.map (fun f : ℤ =>
              calcular_flujo_magnetico c
                (calcular_campo_magnetico c ((f : ℝ) * 0.05))) ∧
    (runSim c fs s).emf_inducida
      = s.emf_inducida
          ++ fs.map (fun f : ℤ => calcular_emf_inducida c ((f : ℝ) * 0.05)) := by
  induction fs generalizing s with
  | nil => simp [runSim]
  | cons f fs ih =>
    obtain ⟨h1, h2, h3, h4⟩ := ih ((animacion c s f).1)
    refine ⟨?_, ?_, ?_, ?_⟩
    · show (runSim c fs (animacion c s f).1).tiempo = _
      rw [h1, animacion_tiempo]
      simp
    · show (runSim c fs (animacion c s f).1).campo_magnetico = _
      rw [h2, animacion_campo]
      simp
    · show (runSim c fs (animacion c s f).1).flujo_magnetico = _
      rw [h3, animacion_flujo]
      simp
    · show (runSim c fs (animacion c s f).1).emf_inducida = _
      rw [h4, animacion_emf]
      simp

/-- C3: a physics sample is appended to the history on every step,
unconditionally; after `k` calls of the step (k ≥ 1, strictly increasing
frames starting at 0) each of the four history sequences has length exactly
`k`, and the full sequences are the per-call values in call order (aligned
indices). -/
theorem historia_crece (c : Config) (k : ℕ) (fs : List ℤ)
    (hk : 1 ≤ k) (hlen : fs.length = k)
    (hmono : List.Chain' (fun a b => a < b) fs) (hzero : fs.head? = some 0) :
    ((runSim c fs estadoInicial).tiempo.length = k ∧
     (runSim c fs estadoInicial).campo_magnetico.length = k ∧
     (runSim c fs estadoInicial).flujo_magnetico.length = k ∧
     (runSim c fs estadoInicial).emf_inducida.length = k) ∧
    (runSim c fs estadoInicial).tiempo
      = fs.map (fun f : ℤ => (f : ℝ) * 0.05) ∧
    (runSim c fs estadoInicial).campo_magnetico
      = fs.map (fun f : ℤ => calcular_campo_magnetico c ((f : ℝ) * 0.05)) ∧
    (runSim c fs estadoInicial).flujo_magnetico
      = fs.map (fun f : ℤ =>
          calcular_flujo_magnetico c
            (calcular_campo_magnetico c ((f : ℝ) * 0.05))) ∧
    (runSim c fs estadoInicial).emf_inducida
      = fs.map (fun f : ℤ => calcular_emf_inducida c ((f : ℝ) * 0.05)) := by
  obtain ⟨h1, h2, h3, h4⟩ := runSim_historia c fs estadoInicial
  have e : estadoInicial.tiempo = [] := rfl
  have e2 : estadoInicial.campo_magnetico = [] := rfl
  have e3 : estadoInicial.flujo_magnetico = [] := rfl
  have e4 : estadoInicial.emf_inducida = [] := rfl
  rw [e] at h1; rw [e2] at h2; rw [e3] at h3; rw [e4] at h4
  simp only [List.nil_append] at h1 h2 h3 h4
  refine ⟨⟨?_, ?_, ?_, ?_⟩, h1, h2, h3, h4⟩
  · rw [h1, List.length_map, hlen]
  · rw [h2, List.length_map, hlen]
  · rw [h3, List.length_map, hlen]
  · rw [h4, List.length_map, hlen]

/-- Witness for C3 with k = 2 calls at frames 0, 1. -/
theorem historia_crece_witness :
    (1 ≤ 2 ∧ ([(0 : ℤ), 1]).length = 2 ∧
      List.Chain' (fun a b => a < b) [(0 : ℤ), 1] ∧
      ([(0 : ℤ), 1]).head? = some 0) ∧
    (((runSim config_basica [(0 : ℤ), 1] estadoInicial).tiempo.length = 2 ∧
      (runSim config_basica [(0 : ℤ), 1]
          estadoInicial).campo_magnetico.length = 2 ∧
      (runSim config_basica [(0 : ℤ), 1]
          estadoInicial).flujo_magnetico.length = 2 ∧
      (runSim config_basica [(0 : ℤ), 1]
          estadoInicial).emf_inducida.length = 2) ∧
     (runSim config_basica [(0 : ℤ), 1] estadoInicial).tiempo
        = ([(0 : ℤ), 1]).map (fun f : ℤ => (f : ℝ) * 0.05) ∧
     (runSim config_basica [(0 : ℤ), 1] estadoInicial).campo_magnetico
        = ([(0 : ℤ), 1]).map (fun f : ℤ =>
            calcular_campo_magnetico config_basica ((f : ℝ) * 0.05)) ∧
     (runSim config_basica [(0 : ℤ), 1] estadoInicial).flujo_magnetico
        = ([(0 : ℤ), 1]).map (fun f : ℤ =>
            calcular_flujo_magnetico config_basica
              (calcular_campo_magnetico config_basica ((f : ℝ) * 0.05))) ∧
     (runSim config_basica [(0 : ℤ), 1] estadoInicial).emf_inducida
        = ([(0 : ℤ), 1]).map (fun f : ℤ =>
            calcular_emf_inducida config_basica ((f : ℝ) * 0.05))) :=
  ⟨⟨by norm_num, by norm_num,
    by simp [List.chain'_cons, List.chain'_singleton], rfl⟩,
   historia_crece config_basica 2 [(0 : ℤ), 1] (by norm_num) (by norm_num)
     (by simp [List.chain'_cons, List.chain'_singleton]) rfl⟩

/-- C4: the 90-degree phase-shift invariant.  For every valid configuration
and every time `t = frame * 0.05`, `|epsilon(t)|` attains its maximum value
`N * A * B_max * omega` exactly at the instants where `B(t) = 0`, and
`epsilon(t) = 0` exactly at the instants where `|B(t)| = B_max`. -/
theorem desfase_90 (c : Config) (frame : ℤ) (hval : Valid c)
    (hf : 0 ≤ frame) :
    (|calcular_emf_inducida c ((frame : ℝ) * 0.05)| = emf_max c ↔
        calcular_campo_magnetico c ((frame : ℝ) * 0.05) = 0) ∧
    (calcular_emf_inducida c ((frame : ℝ) * 0.05) = 0 ↔
        |calcular_campo_magnetico c ((frame : ℝ) * 0.05)| = c.B_max) := by
  have hM : 0 < emf_max c := emf_max_pos hval
  have hB : 0 < c.B_max := hval.2.2.1
  set x := omega c * ((frame : ℝ) * 0.05) with hxdef
  have hemf : calcular_emf_inducida c ((frame : ℝ) * 0.05)
      = emf_max c * Real.sin x := by
    rw [hxdef]
    exact calcular_emf_emf_max c ((frame : ℝ) * 0.05)
  have hcampo : calcular_campo_magnetico c ((frame : ℝ) * 0.05)
      = c.B_max * Real.cos x := by
    rw [hxdef]
    rfl
  constructor
  · rw [hemf, hcampo, abs_mul, abs_of_pos hM]
    constructor
    · intro h
      have h1 : |Real.sin x| = 1 :=
        mul_left_cancel₀ (ne_of_gt hM) (h.trans (mul_one (emf_max c)).symm)
      rw [(abs_sin_eq_one_iff_cos_eq_zero x).mp h1, mul_zero]
    · intro h
      have hcos : Real.cos x = 0 := by
        rcases mul_eq_zero.mp h with h' | h'
        · exact absurd h' (ne_of_gt hB)
        · exact h'
      rw [(abs_sin_eq_one_iff_cos_eq_zero x).mpr hcos, mul_one]
  · rw [hemf, hcampo]
    constructor
    · intro h
      have hs : Real.sin x = 0 := by
        rcases mul_eq_zero.mp h with h' | h'
        · exact absurd h' (ne_of_gt hM)
        · exact h'
      rw [abs_mul, abs_of_pos hB,
        (abs_cos_eq_one_iff_sin_eq_zero x).mpr hs, mul_one]
    · intro h
      rw [abs_mul, abs_of_pos hB] at h
      have h1 : |Real.cos x| = 1 :=
        mul_left_cancel₀ (ne_of_gt hB) (h.trans (mul_one c.B_max).symm)
      rw [(abs_cos_eq_one_iff_sin_eq_zero x).mp h1, mul_zero]

/-- Witness for C4 at the basic configuration and frame 0. -/
theorem desfase_90_witness :
    Valid config_basica ∧
    ((|calcular_emf_inducida config_basica (((0 : ℤ) : ℝ) * 0.05)|
          = emf_max config_basica ↔
        calcular_campo_magnetico config_basica (((0 : ℤ) : ℝ) * 0.05) = 0) ∧
     (calcular_emf_inducida config_basica (((0 : ℤ) : ℝ) * 0.05) = 0 ↔
        |calcular_campo_magnetico config_basica (((0 : ℤ) : ℝ) * 0.05)|
          = config_basica.B_max)) :=
  ⟨valid_basica, desfase_90 config_basica 0 valid_basica le_rfl⟩

/-- C5: for every valid configuration and every frame ≥ 0, the
EMF-normalised intensity computed during a step (`|epsilon|` divided by the
theoretical maximum amplitude `N * B_max * omega * A`) lies in `[0, 1]`. -/
theorem intensidad_emf_en_rango (c : Config) (s : SimState) (frame : ℤ)
    (hval : Valid c) (hf : 0 ≤ frame) :
    0 ≤ (animacion c s frame).2.intensidad ∧
    (animacion c s frame).2.intensidad ≤ 1 := by
  have hM : 0 < emf_max c := emf_max_pos hval
  rw [animacion_intensidad]
  unfold intensidad_emf
  constructor
  · exact div_nonneg (abs_nonneg _) hM.le
  · rw [div_le_one hM, calcular_emf_emf_max, abs_mul, abs_of_pos hM]
    have hs : |Real.sin (omega c * ((frame : ℝ) * 0.05))| ≤ 1 :=
      abs_le.mpr ⟨Real.neg_one_le_sin _, Real.sin_le_one _⟩
    calc emf_max c * |Real.sin (omega c * ((frame : ℝ) * 0.05))|
        ≤ emf_max c * 1 := by
          exact mul_le_mul_of_nonneg_left hs hM.le
      _ = emf_max c := mul_one _

/-- Witness for C5 at the basic configuration, fresh state, frame 0. -/
theorem intensidad_emf_en_rango_witness :
    Valid config_basica ∧
    (0 ≤ (animacion config_basica estadoInicial 0).2.intensidad ∧
     (animacion config_basica estadoInicial 0).2.intensidad ≤ 1) :=
  ⟨valid_basica,
   intensidad_emf_en_rango config_basica estadoInicial 0 valid_basica le_rfl⟩

/-- C6: whenever the camera-rotation cadence is due (`frame % 5 == 0`), the
step sets the azimuth to exactly `45 + 15 * sin(0.3 * t)` with
`t = frame * 0.05`. -/
theorem camara_rotacion (c : Config) (s : SimState) (frame : ℤ)
    (h5 : frame % 5 = 0) :
    (animacion c s frame).1.view_azim
      = 45 + 15 * Real.sin (0.3 * ((frame : ℝ) * 0.05)) := by
  rw [animacion_azim, if_pos, mul_comm ((frame : ℝ) * 0.05) (0.3 : ℝ)]
  show (frame % 5 == 0) = true
  simp [h5]

/-- Witness for C6 at frame 0. -/
theorem camara_rotacion_witness :
    (0 : ℤ) % 5 = 0 ∧
    (animacion config_basica estadoInicial 0).1.view_azim
      = 45 + 15 * Real.sin (0.3 * (((0 : ℤ) : ℝ) * 0.05)) :=
  ⟨rfl, camara_rotacion config_basica estadoInicial 0 rfl⟩

/-- C7: degenerate-range rescale guard.  If every pair of stored B values
(as of the rescale check, after this frame's sample was appended) lies
within `1e-4` of each other, then a step on which the axis-rescale cadence
is due leaves the y-axis bounds of the field plot unchanged: the
`1.1 * min / 1.1 * max` bounds are applied only when the series has more
than one distinct value and its spread exceeds `0.001`. -/
theorem guardia_rescalado_degenerado (c : Config) (s : SimState) (frame : ℤ)
    (hdue : frame % 10 = 0 ∧ 10 < ((animacion c s frame).1.tiempo).length)
    (hflat : ∀ x ∈ (animacion c s frame).1.campo_magnetico,
        ∀ y ∈ (animacion c s frame).1.campo_magnetico, |x - y| ≤ 0.0001) :
    (animacion c s frame).1.ax2_ylim = s.ax2_ylim := by
  rw [animacion_campo] at hflat
  rw [animacion_ax2_ylim]
  exact nuevo_ylim_flat (by simp) hflat

/-- A history of ten identical field samples at the basic configuration's
peak value, used to exercise the degenerate-range guard. -/
noncomputable def estado_plano : SimState :=
  ⟨List.replicate 10 0, List.replicate 10 2, List.replicate 10 0,
   List.replicate 10 0, 45, (0, 1), (0, 1), (0, 1), (0, 1)⟩

/-- Witness for C7: a flat 10-entry history at frame 0 (rescale due, since
the post-append history has 11 > 10 entries and 0 % 10 = 0); the y-limits
are kept. -/
theorem guardia_rescalado_degenerado_witness :
    ((0 : ℤ) % 10 = 0 ∧
      10 < ((animacion config_basica estado_plano 0).1.tiempo).length) ∧
    (∀ x ∈ (animacion config_basica estado_plano 0).1.campo_magnetico,
      ∀ y ∈ (animacion config_basica estado_plano 0).1.campo_magnetico,
        |x - y| ≤ 0.0001) ∧
    (animacion config_basica estado_plano 0).1.ax2_ylim
      = estado_plano.ax2_ylim := by
  have hB0 : calcular_campo_magnetico config_basica (((0 : ℤ) : ℝ) * 0.05)
      = 2 := by
    simp [calcular_campo_magnetico, omega, config_basica]
  have hdue : (0 : ℤ) % 10 = 0 ∧
      10 < ((animacion config_basica estado_plano 0).1.tiempo).length := by
    refine ⟨rfl, ?_⟩
    rw [animacion_tiempo]
    simp [estado_plano]
  have hflat : ∀ x ∈ (animacion config_basica estado_plano 0).1.campo_magnetico,
      ∀ y ∈ (animacion config_basica estado_plano 0).1.campo_magnetico,
        |x - y| ≤ 0.0001 := by
    intro x hx y hy
    rw [animacion_campo, hB0] at hx hy
    simp [estado_plano, List.mem_replicate] at hx hy
    norm_num [hx, hy]
  exact ⟨hdue, hflat,
    guardia_rescalado_degenerado config_basica estado_plano 0 hdue hflat⟩

/-- C8: the frame count of `ejecutar_simulacion` is
`floor(duracion / 0.05)` for every positive duration (Python `int()`
truncates toward zero, which is `floor` on positives); in particular a
10-second run yields 200 frames. -/
theorem total_frames_floor (d : ℝ) (hd : 0 < d) :
    totalFrames d = ⌊d / 0.05⌋ ∧ totalFrames 10 = 200 := by
  constructor
  · unfold totalFrames int_trunc
    rw [if_pos]
    positivity
  · unfold totalFrames int_trunc
    rw [if_pos (by norm_num : (0 : ℝ) ≤ 10 / 0.05)]
    have h200 : (10 : ℝ) / 0.05 = ((200 : ℤ) : ℝ) := by norm_num
    rw [h200, Int.floor_intCast]

/-- Witness for C8 at duration 10. -/
theorem total_frames_floor_witness :
    (0 : ℝ) < 10 ∧
    (totalFrames 10 = ⌊(10 : ℝ) / 0.05⌋ ∧ totalFrames 10 = 200) :=
  ⟨by norm_num, total_frames_floor 10 (by norm_num)⟩

/-- Counterexample for C9: the step performs no frame validation, so a call
with the negative frame index `-1` is not rejected with any error — it is
processed like any other frame, computing `t = -1 * 0.05 = -0.05` and
appending a fresh sample to the (initially empty) history. -/
theorem paso_negativo_counterexample :
    (animacion config_basica estadoInicial (-1)).1.tiempo
        = [((-1 : ℤ) : ℝ) * 0.05] ∧
    ((animacion config_basica estadoInicial (-1)).1.tiempo).length = 1 :=
  ⟨rfl, rfl⟩

/-- C9 (amended): `animacion` performs no validation of its frame argument;
a step at any frame index, negative included, runs the same unconditional
computation: it derives `t = frame * 0.05` and appends the sample for `t`
to all four history arrays. -/
theorem paso_sin_validacion (c : Config) (s : SimState) (frame : ℤ) :
    (animacion c s frame).1.tiempo = s.tiempo ++ [(frame : ℝ) * 0.05] ∧
    (animacion c s frame).1.campo_magnetico
      = s.campo_magnetico
          ++ [calcular_campo_magnetico c ((frame : ℝ) * 0.05)] ∧
    (animacion c s frame).1.flujo_magnetico
      = s.flujo_magnetico
          ++ [calcular_flujo_magnetico c
                (calcular_campo_magnetico c ((frame : ℝ) * 0.05))] ∧
    (animacion c s frame).1.emf_inducida
      = s.emf_inducida ++ [calcular_emf_inducida c ((frame : ℝ) * 0.05)] :=
  ⟨animacion_tiempo c s frame, animacion_campo c s frame,
   animacion_flujo c s frame, animacion_emf c s frame⟩

/-- C10: implicit division safety.  The constructor validates nothing, and
the two unguarded divisions — `|B| / B_max` (field intensity) and
`|emf| / (N * B_max * omega * A)` (EMF intensity) — have strictly positive
denominators under the positivity precondition, so they never divide by
zero: multiplying each quotient back by its denominator recovers the
numerator. -/
theorem divisiones_sin_cero (c : Config) (hval : Valid c) :
    0 < c.B_max ∧ 0 < emf_max c ∧
    (∀ B : ℝ, intensidad_campo c B * c.B_max = |B|) ∧
    (∀ emf : ℝ, intensidad_emf c emf * emf_max c = |emf|) := by
  refine ⟨hval.2.2.1, emf_max_pos hval, ?_, ?_⟩
  · intro B
    unfold intensidad_campo
    exact div_mul_cancel₀ _ (ne_of_gt hval.2.2.1)
  · intro emf
    unfold intensidad_emf
    exact div_mul_cancel₀ _ (ne_of_gt (emf_max_pos hval))

/-- Witness for C10 at the basic configuration. -/
theorem divisiones_sin_cero_witness :
    Valid config_basica ∧
    (0 < config_basica.B_max ∧ 0 < emf_max config_basica ∧
     (∀ B : ℝ, intensidad_campo config_basica B * config_basica.B_max = |B|) ∧
     (∀ emf : ℝ,
        intensidad_emf config_basica emf * emf_max config_basica = |emf|)) :=
  ⟨valid_basica, divisiones_sin_cero config_basica valid_basica⟩

end Faraday3D
